import Mathlib

/-!
# Verification of the CLI todo app (`src/todo.py`)

Shallow embedding of the task repository, storage codec and command
handlers of `todo.py`, together with theorems settling the spec claims.

Python dictionaries holding a task are embedded as the `Task` structure;
the `created_at` key may be absent in data loaded from disk, so it is an
`Option String`.  Mutation of the Python list is embedded as explicit
state passing: each mutating operation returns its boolean result
together with the new list.
-/

namespace Todo

/-- A task record, as held in the JSON-backed list of `todo.py`.
`id` is a Python `int`, embedded as `Int`; `created_at` is `none` when
the dictionary lacks the key. -/
structure Task where
  id : Int
  text : String
  completed : Bool
  created_at : Option String
deriving Repr, DecidableEq

/-- The list of ids of a collection, in collection order. -/
def taskIds (tasks : List Task) : List Int :=
  tasks.map (fun t => t.id)

/-- `get_next_id` of `todo.py`: `1` on the empty list, otherwise
`max(task['id'] for task in tasks) + 1`, the Python `max` embedded as a
fold from the head. -/
def get_next_id (tasks : List Task) : Int :=
  match tasks with
  | [] => 1
  | t :: ts => (ts.foldl (fun m u => max m u.id) t.id) + 1

/-- `add_task` of `todo.py`: builds the new task dictionary with
`id = get_next_id(tasks)`, the given text, `completed = False` and
`created_at = datetime.now().isoformat()` (the current time enters the
embedding as the argument `now`), appends it, and returns it together
with the extended list. -/
def add_task (now : String) (task_text : String) (tasks : List Task) :
    Task × List Task :=
  let new_task : Task :=
    { id := get_next_id tasks, text := task_text,
      completed := false, created_at := some now }
  (new_task, tasks ++ [new_task])

/-- `find_task_by_id` of `todo.py`: linear scan returning the first task
whose `id` equals `task_id`, or `none`. -/
def find_task_by_id (task_id : Int) (tasks : List Task) : Option Task :=
  match tasks with
  | [] => none
  | t :: ts => if t.id = task_id then some t else find_task_by_id task_id ts

/-- The in-place update `task['completed'] = True` performed by
`complete_task` on the task object returned by `find_task_by_id`: in the
list embedding it rewrites the first task with the given id. -/
def set_completed_first (task_id : Int) (tasks : List Task) : List Task :=
  match tasks with
  | [] => []
  | t :: ts =>
      if t.id = task_id then { t with completed := true } :: ts
      else t :: set_completed_first task_id ts

/-- `complete_task` of `todo.py`: find by id; on `None` return `False`
with the list untouched, otherwise set the found task's `completed`
field to `True` and return `True`. -/
def complete_task (task_id : Int) (tasks : List Task) : Bool × List Task :=
  match find_task_by_id task_id tasks with
  | none => (false, tasks)
  | some _ => (true, set_completed_first task_id tasks)

/-- `delete_task` of `todo.py`: find by id; on `None` return `False`
with the list untouched, otherwise `tasks.remove(task)` — removal of the
first list element equal to the found task — and return `True`. -/
def delete_task (task_id : Int) (tasks : List Task) : Bool × List Task :=
  match find_task_by_id task_id tasks with
  | none => (false, tasks)
  | some t => (true, tasks.erase t)

/-! ## Storage codec -/

/-- JSON values, the possible results of `json.load`. -/
inductive Json where
  | null
  | bool (b : Bool)
  | num (n : Int)
  | str (s : String)
  | arr (elems : List Json)
  | obj (fields : List (String × Json))
deriving Repr

/-- Whether a JSON value is an array (`isinstance(tasks, list)`). -/
def Json.isArr : Json → Bool
  | .arr _ => true
  | _ => false

/-- The state of the backing file as seen through `json.load`: absent,
present but not valid JSON (`json.load` raises `JSONDecodeError`), or
present and parsing to `j`. -/
inductive FileState where
  | missing
  | unparsable
  | parsed (j : Json)
deriving Repr

/-- The exceptions the `try` block of `load_tasks` can raise: a
`json.JSONDecodeError` from `json.load`, or the `ValueError` raised when
the parsed value is not a list. -/
inductive PyExc where
  | jsonDecodeError
  | valueError (msg : String)
deriving Repr, DecidableEq

/-- The `try` body of `load_tasks`: parse the file and check the result
is a list, raising `ValueError` otherwise.  `parseResult` is `none` when
`json.load` raises `JSONDecodeError`. -/
def load_tasks_try (parseResult : Option Json) : Except PyExc (List Json) :=
  match parseResult with
  | none => .error .jsonDecodeError
  | some (.arr xs) => .ok xs
  | some _ => .error (.valueError "Tasks file must contain a JSON array")

/-- What one call of `load_tasks` did: the list it returned, the file
state it left behind, whether a diagnostic was printed to `stderr`, and
whether an exception escaped to the caller. -/
structure LoadOutcome where
  result : List Json
  fileAfter : FileState
  diagnostic : Bool
  raised : Bool
deriving Repr

/-- `load_tasks` of `todo.py`.  A missing file is created holding `[]`.
Otherwise the `try` body runs; its two possible exceptions are both
listed in the `except` clause, which prints a diagnostic to `stderr`,
rewrites the file to `[]` and returns `[]`, so no exception escapes. -/
def load_tasks (fs : FileState) : LoadOutcome :=
  match fs with
  | .missing => ⟨[], .parsed (.arr []), false, false⟩
  | .unparsable =>
      match load_tasks_try none with
      | .ok xs => ⟨xs, .unparsable, false, false⟩
      | .error _ => ⟨[], .parsed (.arr []), true, false⟩
  | .parsed j =>
      match load_tasks_try (some j) with
      | .ok xs => ⟨xs, .parsed j, false, false⟩
      | .error _ => ⟨[], .parsed (.arr []), true, false⟩

/-- One hexadecimal digit, for `\u00XX` escapes. -/
def hexDigit (n : Nat) : Char :=
  if n < 10 then Char.ofNat (48 + n) else Char.ofNat (97 + (n - 10))

/-- How `json.dump` with `ensure_ascii=False` renders one character of a
string: `"`, `\` and control characters are escaped, everything else —
non-ASCII included — is written verbatim. -/
def escapeChar (c : Char) : String :=
  if c = '"' then "\\\""
  else if c = '\\' then "\\\\"
  else if c = '\n' then "\\n"
  else if c = '\t' then "\\t"
  else if c = '\r' then "\\r"
  else if c.toNat = 8 then "\\b"
  else if c.toNat = 12 then "\\f"
  else if c.toNat < 32 then
    "\\u00" ++ String.singleton (hexDigit (c.toNat / 16)) ++
      String.singleton (hexDigit (c.toNat % 16))
  else String.singleton c

/-- `json.dump` rendering of a string value, `ensure_ascii=False`. -/
def dumpString (s : String) : String :=
  "\"" ++ String.join (s.toList.map escapeChar) ++ "\""

/-- `json.dump` rendering of one task dictionary at nesting depth 1 with
`indent=2`: keys in insertion order `id`, `text`, `completed`,
`created_at` (the last omitted when the dictionary lacks the key). -/
def dumpTask (t : Task) : String :=
  "\x7b\n    \"id\": " ++ toString t.id ++
  ",\n    \"text\": " ++ dumpString t.text ++
  ",\n    \"completed\": " ++ (if t.completed then "true" else "false") ++
  (match t.created_at with
   | none => ""
   | some s => ",\n    \"created_at\": " ++ dumpString s) ++
  "\n  \x7d"

/-- `json.dump(tasks, f, indent=2, ensure_ascii=False)` applied to the
whole collection: the full text written to the file. -/
def serializeTasks (tasks : List Task) : String :=
  match tasks with
  | [] => "[]"
  | _ =>
      "[\n  " ++ String.intercalate ",\n  " (tasks.map dumpTask) ++ "\n]"

/-- `save_tasks` of `todo.py`: the file is opened with mode `w`
(truncate) and the serialization of the whole collection is written, so
the new file content is `serializeTasks tasks` whatever `prior` content
the file held. -/
def save_tasks (tasks : List Task) (_prior : String) : String :=
  serializeTasks tasks

/-! ## Display -/

/-- A naive timestamp, the result of a successful
`datetime.fromisoformat`. -/
structure PyDateTime where
  year : Nat
  month : Nat
  day : Nat
  hour : Nat
  minute : Nat
  second : Nat
deriving Repr, DecidableEq

/-- A number zero-padded to two digits (`%m`, `%d`, `%H`, `%M`). -/
def pad2 (n : Nat) : String :=
  if n < 10 then "0" ++ toString n else toString n

/-- `created_dt.strftime("%Y-%m-%d %H:%M")`, as the platform (glibc) C
`strftime` the interpreter delegates to renders it: `%Y` prints the
year unpadded, the other fields zero-padded to two digits. -/
def strftime_ymd_hm (dt : PyDateTime) : String :=
  toString dt.year ++ "-" ++ pad2 dt.month ++ "-" ++ pad2 dt.day ++ " " ++
    pad2 dt.hour ++ ":" ++ pad2 dt.minute

/-- The status mark of `format_task`: the source file's literal
(mojibake-encoded) check glyph when completed, a space otherwise. -/
def status_mark (t : Task) : String := if t.completed then "âœ“" else " "

/-- The timestamp part of `format_task`.  `datetime.fromisoformat` is an
external library call whose accepted grammar varies with the Python
version, so it enters the embedding as the parameter `fromiso` (`none`
standing for the call raising `ValueError`), the way `json.load` enters
`load_tasks` as a parse result; a missing `created_at` key raises
`KeyError` instead.  Both exceptions are caught and rendered as
`"Unknown"`. -/
def format_timestamp (fromiso : String → Option PyDateTime)
    (t : Task) : String :=
  match t.created_at with
  | none => "Unknown"
  | some s =>
      match fromiso s with
      | none => "Unknown"
      | some dt => strftime_ymd_hm dt

/-- `format_task` of `todo.py`:
`f"[{task_id}] [{status}] {text} ({timestamp})"`. -/
def format_task (fromiso : String → Option PyDateTime) (t : Task) : String :=
  "[" ++ toString t.id ++ "] [" ++ status_mark t ++ "] " ++ t.text ++
    " (" ++ format_timestamp fromiso t ++ ")"

/-- `list_tasks` of `todo.py`, as the list of lines printed to stdout:
a single message on an empty collection, otherwise one formatted line
per task in collection order. -/
def list_tasks (fromiso : String → Option PyDateTime)
    (tasks : List Task) : List String :=
  match tasks with
  | [] => ["No tasks found."]
  | _ => tasks.map (format_task fromiso)

/-! ## Command handlers

Each handler first calls `load_tasks`; the handlers are embedded as
functions of the collection that load returned, recording which list
(if any) was passed to `save_tasks`, the lines printed on each stream,
and the process exit code (`sys.exit(1)` on failure). -/

/-- What one handler invocation did after loading. -/
structure HandlerOutcome where
  saved : Option (List Task)
  stdout : List String
  stderr : List String
  exitCode : Nat
deriving Repr, DecidableEq

/-- `handle_complete` of `todo.py`, after `load_tasks`. -/
def handle_complete (task_id : Int) (tasks : List Task) : HandlerOutcome :=
  let r := complete_task task_id tasks
  if r.1 then
    ⟨some r.2, ["Marked task #" ++ toString task_id ++ " as complete"], [], 0⟩
  else
    ⟨none, [], ["Error: Task #" ++ toString task_id ++ " not found"], 1⟩

/-- `handle_delete` of `todo.py`, after `load_tasks`. -/
def handle_delete (task_id : Int) (tasks : List Task) : HandlerOutcome :=
  let r := delete_task task_id tasks
  if r.1 then
    ⟨some r.2, ["Deleted task #" ++ toString task_id], [], 0⟩
  else
    ⟨none, [], ["Error: Task #" ++ toString task_id ++ " not found"], 1⟩

/-- `handle_add` of `todo.py`, after `load_tasks`; `now` is the clock
reading taken inside `add_task`. -/
def handle_add (now : String) (text : String) (tasks : List Task) :
    HandlerOutcome :=
  let r := add_task now text tasks
  ⟨some r.2, ["Added task #" ++ toString r.1.id ++ ": " ++ r.1.text], [], 0⟩

/-! ## Lemmas about the repository operations -/

theorem find_eq_none_iff (task_id : Int) (tasks : List Task) :
    find_task_by_id task_id tasks = none ↔ task_id ∉ taskIds tasks := by
  induction tasks with
  | nil => simp [find_task_by_id, taskIds]
  | cons t ts ih =>
      by_cases h : t.id = task_id
      · simp [find_task_by_id, taskIds, h]
      · simp [find_task_by_id, taskIds, h, ih]
        intro hmem
        exact fun heq => h heq.symm

theorem find_some_spec (task_id : Int) (tasks : List Task) (t : Task)
    (h : find_task_by_id task_id tasks = some t) :
    t ∈ tasks ∧ t.id = task_id := by
  induction tasks with
  | nil => simp [find_task_by_id] at h
  | cons u ts ih =>
      by_cases hu : u.id = task_id
      · simp [find_task_by_id, hu] at h
        subst h
        exact ⟨List.mem_cons_self u ts, hu⟩
      · simp [find_task_by_id, hu] at h
        obtain ⟨hmem, hid⟩ := ih h
        exact ⟨List.mem_cons_of_mem u hmem, hid⟩

theorem exists_find_of_mem (task_id : Int) (tasks : List Task)
    (h : task_id ∈ taskIds tasks) :
    ∃ t, find_task_by_id task_id tasks = some t := by
  cases hf : find_task_by_id task_id tasks with
  | none => exact absurd ((find_eq_none_iff task_id tasks).mp hf) (not_not_intro h)
  | some t => exact ⟨t, rfl⟩

theorem foldl_max_le (ts : List Task) (a : Int) :
    a ≤ ts.foldl (fun m u => max m u.id) a ∧
      ∀ u ∈ ts, u.id ≤ ts.foldl (fun m u => max m u.id) a := by
  induction ts generalizing a with
  | nil => simp
  | cons t ts ih =>
      obtain ⟨h₁, h₂⟩ := ih (max a t.id)
      refine ⟨le_trans (le_max_left a t.id) h₁, ?_⟩
      intro u hu
      rcases List.mem_cons.mp hu with h | h
      · subst h
        exact le_trans (le_max_right a u.id) h₁
      · exact h₂ u h

theorem foldl_max_mem (ts : List Task) (a : Int) :
    ts.foldl (fun m u => max m u.id) a = a ∨
      ∃ u ∈ ts, ts.foldl (fun m u => max m u.id) a = u.id := by
  induction ts generalizing a with
  | nil => simp
  | cons t ts ih =>
      rcases ih (max a t.id) with h | ⟨u, hu, h⟩
      · rcases max_cases a t.id with ⟨hm, _⟩ | ⟨hm, _⟩
        · exact Or.inl (by simpa [hm] using h)
        · exact Or.inr ⟨t, List.mem_cons_self t ts, by simpa [hm] using h⟩
      · exact Or.inr ⟨u, List.mem_cons_of_mem t hu, h⟩

theorem lt_get_next_id (tasks : List Task) :
    ∀ t ∈ tasks, t.id < get_next_id tasks := by
  intro t ht
  cases tasks with
  | nil => simp at ht
  | cons u ts =>
      have h := foldl_max_le ts u.id
      rcases List.mem_cons.mp ht with he | he
      · subst he
        have := h.1
        simp only [get_next_id]
        omega
      · have := h.2 t he
        simp only [get_next_id]
        omega

theorem get_next_id_sub_one_mem (tasks : List Task) (h : tasks ≠ []) :
    get_next_id tasks - 1 ∈ taskIds tasks := by
  cases tasks with
  | nil => exact absurd rfl h
  | cons u ts =>
      rcases foldl_max_mem ts u.id with hm | ⟨v, hv, hm⟩
      · simp only [get_next_id, taskIds, List.map_cons, add_sub_cancel_right, hm]
        exact List.mem_cons_self _ _
      · simp only [get_next_id, taskIds, List.map_cons, add_sub_cancel_right, hm]
        exact List.mem_cons_of_mem _ (List.mem_map_of_mem (fun t => t.id) hv)

theorem taskIds_set_completed_first (task_id : Int) (tasks : List Task) :
    taskIds (set_completed_first task_id tasks) = taskIds tasks := by
  induction tasks with
  | nil => rfl
  | cons t ts ih =>
      by_cases h : t.id = task_id
      · simp [set_completed_first, taskIds, h]
      · simp [set_completed_first, taskIds, h]
        simpa [taskIds] using ih

theorem set_completed_first_idem (task_id : Int) (tasks : List Task) :
    set_completed_first task_id (set_completed_first task_id tasks) =
      set_completed_first task_id tasks := by
  induction tasks with
  | nil => rfl
  | cons t ts ih =>
      by_cases h : t.id = task_id
      · simp [set_completed_first, h]
      · simp [set_completed_first, h, ih]

theorem complete_decomp (task_id : Int) (tasks : List Task)
    (h : task_id ∈ taskIds tasks) :
    ∃ pre t post, tasks = pre ++ t :: post ∧ t.id = task_id ∧
      (∀ u ∈ pre, u.id ≠ task_id) ∧
      complete_task task_id tasks =
        (true, pre ++ { t with completed := true } :: post) := by
  induction tasks with
  | nil => simp [taskIds] at h
  | cons u ts ih =>
      by_cases hu : u.id = task_id
      · refine ⟨[], u, ts, by simp, hu, by simp, ?_⟩
        simp [complete_task, find_task_by_id, set_completed_first, hu]
      · have hmem : task_id ∈ taskIds ts := by
          rw [taskIds, List.map_cons, List.mem_cons] at h
          rcases h with h | h
          · exact absurd h.symm hu
          · exact h
        obtain ⟨pre, t, post, hdec, hid, hpre, hct⟩ := ih hmem
        refine ⟨u :: pre, t, post, by simp [hdec], hid, ?_, ?_⟩
        · intro v hv
          rcases List.mem_cons.mp hv with hv | hv
          · subst hv; exact hu
          · exact hpre v hv
        · simp only [complete_task, find_task_by_id, hu, if_false] at hct ⊢
          cases hf : find_task_by_id task_id ts with
          | none =>
              exact absurd ((find_eq_none_iff task_id ts).mp hf)
                (not_not_intro hmem)
          | some w =>
              simp only [hf] at hct
              simp only [Prod.mk.injEq] at hct
              simp [set_completed_first, hu, hct.2]

theorem erase_eq_filter_of_nodup (task_id : Int) (tasks : List Task) (t : Task)
    (hnd : (taskIds tasks).Nodup)
    (hf : find_task_by_id task_id tasks = some t) :
    tasks.erase t = tasks.filter (fun u => u.id != task_id) := by
  induction tasks with
  | nil => simp [find_task_by_id] at hf
  | cons u ts ih =>
      by_cases hu : u.id = task_id
      · simp only [find_task_by_id, hu, if_true] at hf
        have ht : t = u := by injection hf with h; exact h.symm
        subst ht
        have h2 : (∀ x ∈ ts, ¬x.id = t.id) ∧
            (List.map (fun w => w.id) ts).Nodup := by
          simpa [taskIds] using hnd
        have hfil : ts.filter (fun v => v.id != task_id) = ts := by
          apply List.filter_eq_self.mpr
          intro v hv
          simp only [bne_iff_ne, ne_eq, decide_eq_true_eq]
          intro he
          exact h2.1 v hv (by rw [he, ← hu])
        simp [List.erase_cons_head, List.filter_cons, hu, hfil]
      · simp only [find_task_by_id, hu, if_false] at hf
        have hid : t.id = task_id := (find_some_spec task_id ts t hf).2
        have htu : t ≠ u := fun he => hu (by rw [← he, hid])
        have h2 : (∀ x ∈ ts, ¬x.id = u.id) ∧
            (List.map (fun w => w.id) ts).Nodup := by
          simpa [taskIds] using hnd
        have hnd' : (taskIds ts).Nodup := by simpa [taskIds] using h2.2
        have := ih hnd' hf
        have hbeq : (u == t) = false := by
          simp [beq_eq_false_iff_ne]
          exact fun he => htu he.symm
        simp [List.erase_cons, hbeq, List.filter_cons, hu, this]

/-! ## The claims -/

/-- C4: `get_next_id` returns 1 on the empty collection, and otherwise
the maximum id occurring in the collection plus 1. -/
theorem claim_C4 :
    get_next_id [] = 1 ∧
    ∀ tasks : List Task, tasks ≠ [] →
      ∃ m : Int, m ∈ taskIds tasks ∧ (∀ i ∈ taskIds tasks, i ≤ m) ∧
        get_next_id tasks = m + 1 := by
  refine ⟨rfl, ?_⟩
  intro tasks h
  refine ⟨get_next_id tasks - 1, get_next_id_sub_one_mem tasks h, ?_, by ring⟩
  intro i hi
  obtain ⟨t, ht, he⟩ := List.mem_map.mp hi
  have := lt_get_next_id tasks t ht
  omega

/-- Witness for C4 at the concrete collection of ids 3 and 7. -/
theorem claim_C4_witness :
    ∃ m : Int,
      m ∈ taskIds [⟨3, "a", false, none⟩, ⟨7, "b", true, none⟩] ∧
      (∀ i ∈ taskIds [⟨3, "a", false, none⟩, ⟨7, "b", true, none⟩], i ≤ m) ∧
      get_next_id [⟨3, "a", false, none⟩, ⟨7, "b", true, none⟩] = m + 1 :=
  claim_C4.2 _ (by decide)

/-- C5: `add_task` builds a task with id `get_next_id tasks`, the given
text (any string, the empty one included), `completed = false` and the
clock reading as timestamp, appends it at the end leaving the existing
tasks and their order unchanged, and returns it. -/
theorem claim_C5 (now text : String) (tasks : List Task) :
    (add_task now text tasks).1.id = get_next_id tasks ∧
    (add_task now text tasks).1.text = text ∧
    (add_task now text tasks).1.completed = false ∧
    (add_task now text tasks).1.created_at = some now ∧
    (add_task now text tasks).2 = tasks ++ [(add_task now text tasks).1] :=
  ⟨rfl, rfl, rfl, rfl, rfl⟩

/-- C2: on a backing file that fails to parse, or parses to a non-array,
`load_tasks` prints a diagnostic to stderr, rewrites the file to `[]`,
returns the empty collection, and lets no exception escape. -/
theorem claim_C2 (fs : FileState)
    (h : fs = .unparsable ∨ ∃ j : Json, fs = .parsed j ∧ j.isArr = false) :
    load_tasks fs = ⟨[], .parsed (.arr []), true, false⟩ := by
  rcases h with h | ⟨j, h, hj⟩
  · subst h; rfl
  · subst h
    cases j with
    | arr xs => simp [Json.isArr] at hj
    | null => rfl
    | bool b => rfl
    | num n => rfl
    | str s => rfl
    | obj fields => rfl

/-- Witness for C2: a file holding the JSON string `"not an array"`. -/
theorem claim_C2_witness :
    load_tasks (.parsed (.str "not an array")) =
      ⟨[], .parsed (.arr []), true, false⟩ :=
  claim_C2 _ (Or.inr ⟨Json.str "not an array", rfl, rfl⟩)

/-- C3: for an id not in the collection, `complete_task` returns failure
leaving the collection unchanged, and `handle_complete` saves nothing,
prints an error naming the id to stderr and exits with code 1;
`delete_task` and `handle_delete` behave symmetrically. -/
theorem claim_C3 (task_id : Int) (tasks : List Task)
    (h : task_id ∉ taskIds tasks) :
    complete_task task_id tasks = (false, tasks) ∧
    handle_complete task_id tasks =
      ⟨none, [], ["Error: Task #" ++ toString task_id ++ " not found"], 1⟩ ∧
    delete_task task_id tasks = (false, tasks) ∧
    handle_delete task_id tasks =
      ⟨none, [], ["Error: Task #" ++ toString task_id ++ " not found"], 1⟩ := by
  have hf : find_task_by_id task_id tasks = none := (find_eq_none_iff _ _).mpr h
  have hc : complete_task task_id tasks = (false, tasks) := by
    simp [complete_task, hf]
  have hd : delete_task task_id tasks = (false, tasks) := by
    simp [delete_task, hf]
  exact ⟨hc, by simp [handle_complete, hc], hd, by simp [handle_delete, hd]⟩

/-- Witness for C3: `complete 99` and `delete 99` against the empty
collection. -/
theorem claim_C3_witness :
    complete_task 99 [] = (false, []) ∧
    handle_complete 99 [] =
      ⟨none, [], ["Error: Task #" ++ toString (99 : Int) ++ " not found"], 1⟩ ∧
    delete_task 99 [] = (false, []) ∧
    handle_delete 99 [] =
      ⟨none, [], ["Error: Task #" ++ toString (99 : Int) ++ " not found"], 1⟩ :=
  claim_C3 99 [] (by decide)

/-- C6: for an id present in the collection, `complete_task` succeeds,
and running it a second time on the result succeeds again and leaves the
state exactly as after the first run. -/
theorem claim_C6 (task_id : Int) (tasks : List Task)
    (h : task_id ∈ taskIds tasks) :
    (complete_task task_id tasks).1 = true ∧
    (complete_task task_id (complete_task task_id tasks).2).1 = true ∧
    (complete_task task_id (complete_task task_id tasks).2).2 =
      (complete_task task_id tasks).2 := by
  obtain ⟨t, hf⟩ := exists_find_of_mem task_id tasks h
  have h1 : complete_task task_id tasks =
      (true, set_completed_first task_id tasks) := by
    simp [complete_task, hf]
  have hmem2 : task_id ∈ taskIds (set_completed_first task_id tasks) := by
    rw [taskIds_set_completed_first]; exact h
  obtain ⟨t2, hf2⟩ := exists_find_of_mem task_id _ hmem2
  have h2 : complete_task task_id (set_completed_first task_id tasks) =
      (true, set_completed_first task_id (set_completed_first task_id tasks)) := by
    simp [complete_task, hf2]
  rw [h1]
  exact ⟨rfl, by simp [h2], by simp [h2, set_completed_first_idem]⟩

/-- Witness for C6: completing task 1 twice in a two-task collection. -/
theorem claim_C6_witness :
    (complete_task 1 [⟨1, "a", false, none⟩, ⟨2, "b", false, none⟩]).1 = true ∧
    (complete_task 1
      (complete_task 1 [⟨1, "a", false, none⟩, ⟨2, "b", false, none⟩]).2).1 =
        true ∧
    (complete_task 1
      (complete_task 1 [⟨1, "a", false, none⟩, ⟨2, "b", false, none⟩]).2).2 =
      (complete_task 1 [⟨1, "a", false, none⟩, ⟨2, "b", false, none⟩]).2 :=
  claim_C6 1 _ (by decide)

/-- C7: on a collection with unique ids, `delete_task` of a present id
succeeds and removes exactly the task bearing that id, keeping the
remaining tasks in their relative order (the result is the id-filtered
list, a sublist of the original); a missing id yields failure and no
change. -/
theorem claim_C7 (task_id : Int) (tasks : List Task)
    (hnd : (taskIds tasks).Nodup) :
    (task_id ∈ taskIds tasks →
      (delete_task task_id tasks).1 = true ∧
      (delete_task task_id tasks).2 =
        tasks.filter (fun u => u.id != task_id) ∧
      List.Sublist (delete_task task_id tasks).2 tasks) ∧
    (task_id ∉ taskIds tasks → delete_task task_id tasks = (false, tasks)) := by
  constructor
  · intro h
    obtain ⟨t, hf⟩ := exists_find_of_mem task_id tasks h
    have he := erase_eq_filter_of_nodup task_id tasks t hnd hf
    have hd : delete_task task_id tasks = (true, tasks.erase t) := by
      simp [delete_task, hf]
    rw [hd]
    exact ⟨rfl, he, by rw [he]; exact List.filter_sublist tasks⟩
  · intro h
    simp [delete_task, (find_eq_none_iff _ _).mpr h]

/-- Witness for C7: deleting id 1 from a two-task collection. -/
theorem claim_C7_witness :
    (delete_task 1 [⟨1, "a", false, none⟩, ⟨2, "b", true, some "x"⟩]).1 =
      true ∧
    (delete_task 1 [⟨1, "a", false, none⟩, ⟨2, "b", true, some "x"⟩]).2 =
      List.filter (fun u => u.id != 1)
        [⟨1, "a", false, none⟩, ⟨2, "b", true, some "x"⟩] ∧
    List.Sublist
      (delete_task 1 [⟨1, "a", false, none⟩, ⟨2, "b", true, some "x"⟩]).2
      [⟨1, "a", false, none⟩, ⟨2, "b", true, some "x"⟩] :=
  (claim_C7 1 _ (by decide)).1 (by decide)

/-- C10: on a collection with unique ids, a successful `complete_task`
changes only the `completed` field of the task bearing the id: the
collection splits as `pre ++ t :: post` with `t.id` the target, and the
result is `pre ++ t' :: post` where `t'` keeps `t`'s id, text and
timestamp; length (and hence order of everything else) is unchanged, and
no task outside the match point carries the id. -/
theorem claim_C10 (task_id : Int) (tasks : List Task)
    (hnd : (taskIds tasks).Nodup) (h : task_id ∈ taskIds tasks) :
    (complete_task task_id tasks).1 = true ∧
    (complete_task task_id tasks).2.length = tasks.length ∧
    ∃ pre t post, tasks = pre ++ t :: post ∧ t.id = task_id ∧
      (∀ u ∈ pre, u.id ≠ task_id) ∧ (∀ u ∈ post, u.id ≠ task_id) ∧
      (complete_task task_id tasks).2 =
        pre ++ ({ id := t.id, text := t.text, completed := true,
                  created_at := t.created_at } : Task) :: post := by
  obtain ⟨pre, t, post, hdec, hid, hpre, hct⟩ := complete_decomp task_id tasks h
  have hpost : ∀ u ∈ post, u.id ≠ task_id := by
    have hnd2 := hnd
    rw [hdec] at hnd2
    simp only [taskIds, List.map_append, List.map_cons,
      List.nodup_append, List.nodup_cons] at hnd2
    intro u hu he
    apply hnd2.2.1.1
    have hm : u.id ∈ List.map (fun w => w.id) post :=
      List.mem_map_of_mem (fun w => w.id) hu
    rw [hid, ← he]
    exact hm
  refine ⟨by rw [hct], ?_, pre, t, post, hdec, hid, hpre, hpost, by rw [hct]⟩
  rw [hct, hdec]
  simp

/-- Witness for C10: completing id 2 in a two-task collection. -/
theorem claim_C10_witness :
    (complete_task 2 [⟨1, "a", false, none⟩, ⟨2, "b", false, some "s"⟩]).1 =
      true ∧
    (complete_task 2
        [⟨1, "a", false, none⟩, ⟨2, "b", false, some "s"⟩]).2.length =
      ([⟨1, "a", false, none⟩, ⟨2, "b", false, some "s"⟩] : List Task).length ∧
    ∃ pre t post,
      ([⟨1, "a", false, none⟩, ⟨2, "b", false, some "s"⟩] : List Task) =
        pre ++ t :: post ∧ t.id = 2 ∧
      (∀ u ∈ pre, u.id ≠ 2) ∧ (∀ u ∈ post, u.id ≠ 2) ∧
      (complete_task 2 [⟨1, "a", false, none⟩, ⟨2, "b", false, some "s"⟩]).2 =
        pre ++ ({ id := t.id, text := t.text, completed := true,
                  created_at := t.created_at } : Task) :: post :=
  claim_C10 2 _ (by decide) (by decide)

/-- C1 as stated is false on the code: with the one-task collection of
id 1, `delete_task 1` succeeds and the following `add_task` assigns id 1
again — the deleted id is reused. -/
theorem claim_C1_counterexample :
    (delete_task 1 [⟨1, "a", false, none⟩]).1 = true ∧
    (add_task "2024-01-01T00:00:00" "b"
        (delete_task 1 [⟨1, "a", false, none⟩]).2).1.id = 1 := by
  decide

/-- C1 amended: after deleting a present id, the task added next gets an
id strictly greater than every id remaining in the collection (so no id
still present is reused); the deleted id itself is guaranteed not to be
reused only when some remaining task has an id at least as large — when
the deleted id was the strict maximum, the next add reuses it. -/
theorem claim_C1 (task_id : Int) (tasks : List Task) (now text : String)
    (h : task_id ∈ taskIds tasks) :
    (delete_task task_id tasks).1 = true ∧
    (∀ u ∈ (delete_task task_id tasks).2,
        u.id < (add_task now text (delete_task task_id tasks).2).1.id) ∧
    ((∃ u ∈ (delete_task task_id tasks).2, task_id ≤ u.id) →
      (add_task now text (delete_task task_id tasks).2).1.id ≠ task_id) := by
  obtain ⟨t, hf⟩ := exists_find_of_mem task_id tasks h
  have hd : delete_task task_id tasks = (true, tasks.erase t) := by
    simp [delete_task, hf]
  have h2 : (delete_task task_id tasks).2 = tasks.erase t := by rw [hd]
  have h3 : (add_task now text (tasks.erase t)).1.id =
      get_next_id (tasks.erase t) := rfl
  refine ⟨by rw [hd], ?_, ?_⟩
  · intro u hu
    rw [h2] at hu ⊢
    rw [h3]
    exact lt_get_next_id (tasks.erase t) u hu
  · rw [h2]
    rintro ⟨u, hu, hle⟩
    have h1 : u.id < get_next_id (tasks.erase t) :=
      lt_get_next_id (tasks.erase t) u hu
    rw [h3]
    omega

/-- Witness for the amended C1: deleting id 1 while id 5 remains; the
next assigned id is 6, different from 1. -/
theorem claim_C1_witness :
    (delete_task 1 [⟨1, "a", false, none⟩, ⟨5, "b", false, none⟩]).1 = true ∧
    (∀ u ∈ (delete_task 1 [⟨1, "a", false, none⟩, ⟨5, "b", false, none⟩]).2,
        u.id < (add_task "n" "t"
          (delete_task 1
            [⟨1, "a", false, none⟩, ⟨5, "b", false, none⟩]).2).1.id) ∧
    ((∃ u ∈ (delete_task 1
          [⟨1, "a", false, none⟩, ⟨5, "b", false, none⟩]).2, (1 : Int) ≤ u.id) →
      (add_task "n" "t"
        (delete_task 1
          [⟨1, "a", false, none⟩, ⟨5, "b", false, none⟩]).2).1.id ≠ 1) :=
  claim_C1 1 _ "n" "t" (by decide)

/-! ## Serialization and rendering lemmas -/

theorem joinData : ∀ cs : List Char,
    (List.map String.data (List.map String.singleton cs)).flatten = cs
  | [] => rfl
  | c :: cs => by
      simp only [List.map_cons, List.flatten_cons, joinData cs]
      rfl

theorem join_singleton (cs : List Char) :
    String.join (cs.map String.singleton) = ⟨cs⟩ := by
  rw [String.join_eq]
  exact congrArg String.mk (joinData cs)

theorem escapeChar_plain (c : Char) (h32 : 32 ≤ c.toNat) (hq : c ≠ '"')
    (hb : c ≠ '\\') : escapeChar c = String.singleton c := by
  have hn : c ≠ '\n' := by intro he; subst he; exact absurd h32 (by decide)
  have ht : c ≠ '\t' := by intro he; subst he; exact absurd h32 (by decide)
  have hr : c ≠ '\r' := by intro he; subst he; exact absurd h32 (by decide)
  have h8 : ¬c.toNat = 8 := by omega
  have h12 : ¬c.toNat = 12 := by omega
  have hlt : ¬c.toNat < 32 := by omega
  simp [escapeChar, hq, hb, hn, ht, hr, h8, h12, hlt]

theorem dumpString_plain (s : String)
    (h : ∀ c ∈ s.toList, 32 ≤ c.toNat ∧ c ≠ '"' ∧ c ≠ '\\') :
    dumpString s = "\"" ++ s ++ "\"" := by
  unfold dumpString
  have hm : s.toList.map escapeChar = s.toList.map String.singleton :=
    List.map_congr_left
      (fun c hc => escapeChar_plain c (h c hc).1 (h c hc).2.1 (h c hc).2.2)
  rw [hm, join_singleton]
  rfl

set_option maxHeartbeats 8000000 in
set_option maxRecDepth 10000 in
theorem repr_len_four : ∀ k : Nat, k < 9 → ∀ m : Nat, m < 1000 →
    (Nat.repr ((k + 1) * 1000 + m)).length = 4 := by
  decide

set_option maxRecDepth 2000 in
theorem pad2_len : ∀ n : Nat, n < 100 → (pad2 n).length = 2 := by
  decide

theorem strftime_ymd_hm_len (dt : PyDateTime) (h1 : 1000 ≤ dt.year)
    (h2 : dt.year ≤ 9999) (h3 : dt.month ≤ 12) (h4 : dt.day ≤ 31)
    (h5 : dt.hour ≤ 23) (h6 : dt.minute ≤ 59) :
    (strftime_ymd_hm dt).length = 16 := by
  have ht : (toString dt.year : String) = Nat.repr dt.year := rfl
  have hy : (Nat.repr dt.year).length = 4 := by
    have hk : dt.year = (dt.year / 1000 - 1 + 1) * 1000 + dt.year % 1000 := by
      omega
    rw [hk]
    exact repr_len_four (dt.year / 1000 - 1) (by omega) (dt.year % 1000)
      (by omega)
  unfold strftime_ymd_hm
  rw [ht]
  simp only [String.length_append, hy, pad2_len dt.month (by omega),
    pad2_len dt.day (by omega), pad2_len dt.hour (by omega),
    pad2_len dt.minute (by omega)]
  decide

/-- C8: `save_tasks` writes the full serialization of the collection,
independent of the file's prior content (full overwrite, never a partial
or appending write); the serialization is a JSON array (bracket-
delimited text); and with `ensure_ascii=False` the escaping touches only
`"`, `\` and control characters, so non-ASCII text is written verbatim,
with no encoding loss. -/
theorem claim_C8 (tasks : List Task) (p₁ p₂ : String) :
    save_tasks tasks p₁ = serializeTasks tasks ∧
    save_tasks tasks p₁ = save_tasks tasks p₂ ∧
    (∃ body : String, serializeTasks tasks = "[" ++ body ++ "]") ∧
    (∀ c : Char, 32 ≤ c.toNat → c ≠ '"' → c ≠ '\\' →
      escapeChar c = String.singleton c) ∧
    (∀ s : String, (∀ c ∈ s.toList, 32 ≤ c.toNat ∧ c ≠ '"' ∧ c ≠ '\\') →
      dumpString s = "\"" ++ s ++ "\"") := by
  refine ⟨rfl, rfl, ?_, escapeChar_plain, dumpString_plain⟩
  cases tasks with
  | nil => exact ⟨"", by decide⟩
  | cons t ts =>
      refine ⟨"\n  " ++ String.intercalate ",\n  " ((t :: ts).map dumpTask) ++
        "\n", ?_⟩
      show "[\n  " ++ String.intercalate ",\n  " ((t :: ts).map dumpTask) ++
        "\n]" = _
      have a1 : ("[\n  " : String) = "[" ++ "\n  " := by decide
      have a2 : ("\n]" : String) = "\n" ++ "]" := by decide
      rw [a1, a2,
        String.append_assoc "[" "\n  "
          (String.intercalate ",\n  " ((t :: ts).map dumpTask)),
        ← String.append_assoc
          ("[" ++ ("\n  " ++ String.intercalate ",\n  " ((t :: ts).map dumpTask)))
          "\n" "]",
        String.append_assoc "["
          ("\n  " ++ String.intercalate ",\n  " ((t :: ts).map dumpTask)) "\n"]

/-- Witness for C8: overwriting junk content with the empty array, and
verbatim non-ASCII rendering. -/
theorem claim_C8_witness :
    save_tasks [] "junk" = serializeTasks [] ∧
    escapeChar 'é' = String.singleton 'é' ∧
    dumpString "héllo" = "\"" ++ "héllo" ++ "\"" := by
  have h := claim_C8 [] "junk" "other"
  exact ⟨h.1, h.2.2.2.1 'é' (by decide) (by decide) (by decide),
    h.2.2.2.2 "héllo" (by decide)⟩

/-- C9: for every behavior of the external `datetime.fromisoformat`
call, the list command prints a single "no tasks" message on the empty
collection and otherwise one `format_task` line per task in order; each
line reads `[id] [mark] text (timestamp)`; the timestamp renders as
`strftime("%Y-%m-%d %H:%M")` (the 16-character `YYYY-MM-DD HH:MM` form
for the four-digit years of every timestamp the app itself writes, and
never influenced by seconds) when `created_at` parses, and as
`"Unknown"` when the field is missing or the parse raises, without
failing the listing. -/
theorem claim_C9 :
    (∀ fromiso : String → Option PyDateTime,
      list_tasks fromiso [] = ["No tasks found."]) ∧
    (∀ fromiso : String → Option PyDateTime, ∀ tasks : List Task,
      tasks ≠ [] →
      list_tasks fromiso tasks = tasks.map (format_task fromiso)) ∧
    (∀ fromiso : String → Option PyDateTime, ∀ t : Task,
      format_task fromiso t =
        "[" ++ toString t.id ++ "] [" ++ status_mark t ++ "] " ++ t.text ++
          " (" ++ format_timestamp fromiso t ++ ")") ∧
    (∀ fromiso : String → Option PyDateTime, ∀ t : Task,
      t.created_at = none → format_timestamp fromiso t = "Unknown") ∧
    (∀ fromiso : String → Option PyDateTime, ∀ t : Task, ∀ s : String,
      t.created_at = some s → fromiso s = none →
      format_timestamp fromiso t = "Unknown") ∧
    (∀ fromiso : String → Option PyDateTime, ∀ t : Task, ∀ s : String,
      ∀ dt : PyDateTime, t.created_at = some s → fromiso s = some dt →
      format_timestamp fromiso t = strftime_ymd_hm dt) ∧
    (∀ dt : PyDateTime, 1000 ≤ dt.year → dt.year ≤ 9999 → dt.month ≤ 12 →
      dt.day ≤ 31 → dt.hour ≤ 23 → dt.minute ≤ 59 →
      (strftime_ymd_hm dt).length = 16) ∧
    (∀ dt : PyDateTime, ∀ n : Nat,
      strftime_ymd_hm { dt with second := n } = strftime_ymd_hm dt) := by
  refine ⟨fun fromiso => rfl, ?_, fun fromiso t => rfl, ?_, ?_, ?_,
    strftime_ymd_hm_len, fun dt n => rfl⟩
  · intro fromiso tasks h
    cases tasks with
    | nil => exact absurd rfl h
    | cons t ts => rfl
  · intro fromiso t h
    simp [format_timestamp, h]
  · intro fromiso t s h1 h2
    simp [format_timestamp, h1, h2]
  · intro fromiso t s dt h1 h2
    simp [format_timestamp, h1, h2]

/-- Witness for C9: a parse that succeeds on one isoformat string, a
missing timestamp, and a failing parse. -/
theorem claim_C9_witness :
    format_timestamp
      (fun s => if s = "2024-01-02T03:04:05" then
        some ⟨2024, 1, 2, 3, 4, 5⟩ else none)
      ⟨1, "Buy milk", false, some "2024-01-02T03:04:05"⟩ =
        strftime_ymd_hm ⟨2024, 1, 2, 3, 4, 5⟩ ∧
    (strftime_ymd_hm ⟨2024, 1, 2, 3, 4, 5⟩).length = 16 ∧
    format_timestamp (fun _ => none) ⟨2, "x", true, none⟩ = "Unknown" ∧
    format_timestamp (fun _ => none) ⟨3, "y", false, some "garbage"⟩ =
      "Unknown" ∧
    list_tasks (fun _ => none) [] = ["No tasks found."] := by
  have h := claim_C9
  exact ⟨h.2.2.2.2.2.1 _
      ⟨1, "Buy milk", false, some "2024-01-02T03:04:05"⟩
      "2024-01-02T03:04:05" ⟨2024, 1, 2, 3, 4, 5⟩ rfl (by decide),
    h.2.2.2.2.2.2.1 ⟨2024, 1, 2, 3, 4, 5⟩ (by decide) (by decide)
      (by decide) (by decide) (by decide) (by decide),
    h.2.2.2.1 _ _ rfl,
    h.2.2.2.2.1 _ _ "garbage" rfl rfl,
    h.1 _⟩

end Todo
